import Mathlib

/-!
Verification of the dde-cooperation peer session core.

This development embeds, in Lean, the message framing layer
(src/src/utils/message_helper.h), the per-peer dispatcher and service
handlers (src/src/dde-cooperation-daemon/Machine/Machine.cc), and a small
transition system for the session state machine, and proves the spec's
claims about them.

Bytes are modelled as natural numbers (intended < 256); byte buffers as
lists of bytes.  Machine integers that matter on the wire (the 64-bit
length field of a frame header) are reduced modulo 2^64 where the code
stores them into a uint64.
-/

namespace DdeCoop

/-! ### Body codec, modelled from the spec

The protobuf schema (protocol/message.proto) and the generated serializer
are not part of the sources under verification; only the framing layer and
the handlers are.  Modelled from the spec: the body is "a fixed schema of
records identified by a variant tag; each field is tag+value", and "the
body parser is total with defaulted fields".  We realize this with a
varint-based tag+value encoding and a total parser that yields a message
with no payload set on an empty or unrecognized body.
-/

/-- Varint encoder, structurally recursive via a fuel bound (fuel ≥ n is
always sufficient; the fuel-0 arm is never reached then). -/
def encVarAux : Nat → Nat → List Nat
  | 0, n => [n % 128]
  | fuel + 1, n => if n < 128 then [n] else (n % 128 + 128) :: encVarAux fuel (n / 128)

/-- Encode a natural number as a base-128 varint (7 data bits per byte,
high bit marks continuation). -/
def encVarNat (n : Nat) : List Nat :=
  encVarAux n n

/-- Decode a varint from the front of a buffer; returns the value and the
remaining bytes.  Total: an empty buffer decodes to 0. -/
def decVarNat : List Nat → Nat × List Nat
  | [] => (0, [])
  | b :: rest =>
    if b < 128 then (b, rest)
    else
      let p := decVarNat rest
      (b - 128 + 128 * p.1, p.2)

theorem decVarNat_encVarAux (fuel : Nat) :
    ∀ n, n ≤ fuel → ∀ r, decVarNat (encVarAux fuel n ++ r) = (n, r) := by
  induction fuel with
  | zero =>
    intro n hn r
    interval_cases n
    simp [encVarAux, decVarNat]
  | succ fuel ih =>
    intro n hn r
    by_cases h : n < 128
    · simp [encVarAux, decVarNat, h]
    · have h128 : 128 ≤ n := Nat.le_of_not_lt h
      have hdiv : n / 128 ≤ fuel := by
        have : n / 128 < n := Nat.div_lt_self (by omega) (by omega)
        omega
      simp only [encVarAux, if_neg h, List.cons_append, decVarNat]
      have hge : ¬ (n % 128 + 128 < 128) := by omega
      simp only [if_neg hge, ih (n / 128) hdiv r]
      rw [Prod.mk.injEq]
      exact ⟨by omega, rfl⟩

theorem decVarNat_encVarNat (n : Nat) (r : List Nat) :
    decVarNat (encVarNat n ++ r) = (n, r) :=
  decVarNat_encVarAux n n (Nat.le_refl n) r

/-- Encode a byte string as a varint length followed by the raw bytes. -/
def encBytes (s : List Nat) : List Nat :=
  encVarNat s.length ++ s

/-- Decode a length-delimited byte string. -/
def decBytes (bs : List Nat) : List Nat × List Nat :=
  let p := decVarNat bs
  (p.2.take p.1, p.2.drop p.1)

theorem decBytes_encBytes (s : List Nat) (r : List Nat) :
    decBytes (encBytes s ++ r) = (s, r) := by
  simp [decBytes, encBytes, decVarNat_encVarNat, List.take_left, List.drop_left]

/-- Encode a protobuf bool (0 or 1 as a varint). -/
def encBool (b : Bool) : List Nat :=
  encVarNat (cond b 1 0)

/-- Decode a bool: nonzero varint means true. -/
def decBool (bs : List Nat) : Bool × List Nat :=
  let p := decVarNat bs
  (p.1 != 0, p.2)

theorem decBool_encBool (b : Bool) (r : List Nat) :
    decBool (encBool b ++ r) = (b, r) := by
  cases b <;> simp [decBool, encBool, decVarNat_encVarNat]

/-- Encode a list of byte strings: a varint count, then each string
length-delimited. -/
def encBytesList (l : List (List Nat)) : List Nat :=
  encVarNat l.length ++ l.foldr (fun s acc => encBytes s ++ acc) []

/-- Decode a counted list of byte strings. -/
def decBytesListAux : Nat → List Nat → List (List Nat) × List Nat
  | 0, bs => ([], bs)
  | k + 1, bs =>
    let p := decBytes bs
    let q := decBytesListAux k p.2
    (p.1 :: q.1, q.2)

def decBytesList (bs : List Nat) : List (List Nat) × List Nat :=
  let p := decVarNat bs
  decBytesListAux p.1 p.2

theorem decBytesListAux_enc (l : List (List Nat)) (r : List Nat) :
    decBytesListAux l.length (l.foldr (fun s acc => encBytes s ++ acc) [] ++ r) = (l, r) := by
  induction l with
  | nil => simp [decBytesListAux]
  | cons s t ih =>
    simp [decBytesListAux, decBytes_encBytes, ih]

theorem decBytesList_encBytesList (l : List (List Nat)) (r : List Nat) :
    decBytesList (encBytesList l ++ r) = (l, r) := by
  simp only [decBytesList, encBytesList, List.append_assoc, decVarNat_encVarNat]
  exact decBytesListAux_enc l r

/-! ### The Message tagged union

Modelled from the spec (§3): the protobuf schema protocol/message.proto is
not under the verified sources; the variant list and their fields follow
the spec's data model and the fields the handlers in Machine.cc read.
Scalar fields are naturals, byte strings are lists of bytes.  The
`unset` constructor stands for a protobuf message whose payload oneof is
not set (payload_case = PAYLOAD_NOT_SET), which the dispatcher's default
arm treats as an invalid variant.
-/

/-- DeviceInfo record carried by pair requests and responses. -/
structure DeviceInfo where
  uuid : List Nat
  name : List Nat
  os : Nat
  compositor : Nat
deriving DecidableEq

inductive Message where
  | pairRequest (key : List Nat) (device : DeviceInfo)
  | pairResponse (key : List Nat) (device : DeviceInfo) (agree : Bool)
  | serviceOnOffNotification (sharedClipboardOn sharedDevicesOn : Bool)
  | deviceSharingStartRequest
  | deviceSharingStartResponse (accept : Bool)
  | deviceSharingStopRequest
  | deviceSharingStopResponse
  | inputEventRequest (serial devicetype type code value : Nat)
  | inputEventResponse (serial : Nat) (success : Bool)
  | flowDirectionNtf (direction : Nat)
  | flowRequest (direction x y : Nat)
  | flowResponse
  | fsRequest
  | fsResponse (accepted : Bool) (port : Nat)
  | fsSendFileRequest (serial : Nat) (path : List Nat)
  | fsSendFileResponse (serial : Nat) (accepted : Bool)
  | fsSendFileResult (serial : Nat) (path : List Nat) (result : Bool)
  | clipboardNotify (targets : List (List Nat))
  | clipboardGetContentRequest (target : List Nat)
  | clipboardGetContentResponse (target content : List Nat)
  | unset
deriving DecidableEq

def encDeviceInfo (d : DeviceInfo) : List Nat :=
  encBytes d.uuid ++ encBytes d.name ++ encVarNat d.os ++ encVarNat d.compositor

def decDeviceInfo (bs : List Nat) : DeviceInfo × List Nat :=
  let p1 := decBytes bs
  let p2 := decBytes p1.2
  let p3 := decVarNat p2.2
  let p4 := decVarNat p3.2
  (⟨p1.1, p2.1, p3.1, p4.1⟩, p4.2)

theorem decDeviceInfo_encDeviceInfo (d : DeviceInfo) (r : List Nat) :
    decDeviceInfo (encDeviceInfo d ++ r) = (d, r) := by
  simp [decDeviceInfo, encDeviceInfo, decBytes_encBytes, decVarNat_encVarNat]

/-- Serialize a message body: a variant tag byte followed by the variant's
fields.  A message with no payload set serializes to the empty body. -/
def serializeBody : Message → List Nat
  | .pairRequest key dev => 1 :: (encBytes key ++ encDeviceInfo dev)
  | .pairResponse key dev agree => 2 :: (encBytes key ++ encDeviceInfo dev ++ encBool agree)
  | .serviceOnOffNotification c d => 3 :: (encBool c ++ encBool d)
  | .deviceSharingStartRequest => [4]
  | .deviceSharingStartResponse a => 5 :: encBool a
  | .deviceSharingStopRequest => [6]
  | .deviceSharingStopResponse => [7]
  | .inputEventRequest serial dt ty co va =>
    8 :: (encVarNat serial ++ encVarNat dt ++ encVarNat ty ++ encVarNat co ++ encVarNat va)
  | .inputEventResponse serial ok => 9 :: (encVarNat serial ++ encBool ok)
  | .flowDirectionNtf d => 10 :: encVarNat d
  | .flowRequest d x y => 11 :: (encVarNat d ++ encVarNat x ++ encVarNat y)
  | .flowResponse => [12]
  | .fsRequest => [13]
  | .fsResponse a p => 14 :: (encBool a ++ encVarNat p)
  | .fsSendFileRequest s p => 15 :: (encVarNat s ++ encBytes p)
  | .fsSendFileResponse s a => 16 :: (encVarNat s ++ encBool a)
  | .fsSendFileResult s p r => 17 :: (encVarNat s ++ encBytes p ++ encBool r)
  | .clipboardNotify ts => 18 :: encBytesList ts
  | .clipboardGetContentRequest t => 19 :: encBytes t
  | .clipboardGetContentResponse t c => 20 :: (encBytes t ++ encBytes c)
  | .unset => []

/-- Total body parser with defaulted fields: an empty body or an
unrecognized tag yields a message with no payload set; missing field bytes
decode to defaults. -/
def parseBody : List Nat → Message
  | [] => .unset
  | tag :: rest =>
    match tag with
    | 1 =>
      let p1 := decBytes rest
      let p2 := decDeviceInfo p1.2
      .pairRequest p1.1 p2.1
    | 2 =>
      let p1 := decBytes rest
      let p2 := decDeviceInfo p1.2
      let p3 := decBool p2.2
      .pairResponse p1.1 p2.1 p3.1
    | 3 =>
      let p1 := decBool rest
      let p2 := decBool p1.2
      .serviceOnOffNotification p1.1 p2.1
    | 4 => .deviceSharingStartRequest
    | 5 =>
      let p1 := decBool rest
      .deviceSharingStartResponse p1.1
    | 6 => .deviceSharingStopRequest
    | 7 => .deviceSharingStopResponse
    | 8 =>
      let p1 := decVarNat rest
      let p2 := decVarNat p1.2
      let p3 := decVarNat p2.2
      let p4 := decVarNat p3.2
      let p5 := decVarNat p4.2
      .inputEventRequest p1.1 p2.1 p3.1 p4.1 p5.1
    | 9 =>
      let p1 := decVarNat rest
      let p2 := decBool p1.2
      .inputEventResponse p1.1 p2.1
    | 10 =>
      let p1 := decVarNat rest
      .flowDirectionNtf p1.1
    | 11 =>
      let p1 := decVarNat rest
      let p2 := decVarNat p1.2
      let p3 := decVarNat p2.2
      .flowRequest p1.1 p2.1 p3.1
    | 12 => .flowResponse
    | 13 => .fsRequest
    | 14 =>
      let p1 := decBool rest
      let p2 := decVarNat p1.2
      .fsResponse p1.1 p2.1
    | 15 =>
      let p1 := decVarNat rest
      let p2 := decBytes p1.2
      .fsSendFileRequest p1.1 p2.1
    | 16 =>
      let p1 := decVarNat rest
      let p2 := decBool p1.2
      .fsSendFileResponse p1.1 p2.1
    | 17 =>
      let p1 := decVarNat rest
      let p2 := decBytes p1.2
      let p3 := decBool p2.2
      .fsSendFileResult p1.1 p2.1 p3.1
    | 18 =>
      let p1 := decBytesList rest
      .clipboardNotify p1.1
    | 19 =>
      let p1 := decBytes rest
      .clipboardGetContentRequest p1.1
    | 20 =>
      let p1 := decBytes rest
      let p2 := decBytes p1.2
      .clipboardGetContentResponse p1.1 p2.1
    | _ => .unset

theorem decVarNat_encVarNat_nil (n : Nat) : decVarNat (encVarNat n) = (n, []) := by
  simpa using decVarNat_encVarNat n []

theorem decBytes_encBytes_nil (s : List Nat) : decBytes (encBytes s) = (s, []) := by
  simpa using decBytes_encBytes s []

theorem decBool_encBool_nil (b : Bool) : decBool (encBool b) = (b, []) := by
  simpa using decBool_encBool b []

theorem decDeviceInfo_encDeviceInfo_nil (d : DeviceInfo) :
    decDeviceInfo (encDeviceInfo d) = (d, []) := by
  simpa using decDeviceInfo_encDeviceInfo d []

theorem decBytesList_encBytesList_nil (l : List (List Nat)) :
    decBytesList (encBytesList l) = (l, []) := by
  simpa using decBytesList_encBytesList l []

theorem parseBody_serializeBody (m : Message) :
    parseBody (serializeBody m) = m := by
  cases m <;>
    simp [serializeBody, parseBody, decBytes_encBytes, decDeviceInfo_encDeviceInfo,
      decBool_encBool, decVarNat_encVarNat, decBytesList_encBytesList,
      decBytes_encBytes_nil, decDeviceInfo_encDeviceInfo_nil, decBool_encBool_nil,
      decVarNat_encVarNat_nil, decBytesList_encBytesList_nil]

/-! ### Frame layer, from src/src/utils/message_helper.h

A frame is a 16-byte MessageHeader — the 8-byte magic "DDECPRT\0"
followed by the body length as a uint64 in network byte order — and then
the body.  genMessage builds the header and appends the serialized body;
parseMessage checks the magic, checks that the whole frame is present,
parses the body and consumes header + length bytes.
-/

/-- The 8 bytes of MAGIC: the characters of "DDECPRT" and the
terminating NUL (sizeof(MAGIC) = 8 in the source). -/
def MAGICB : List Nat := [68, 68, 69, 67, 80, 82, 84, 0]

/-- sizeof(MessageHeader): 8 magic bytes plus the packed uint64 size. -/
def header_size : Nat := 16

/-- The 64-bit length field in network byte order (htonll on a
little-endian host byte-swaps to big-endian); the stored value is the
length reduced modulo 2^64 as a uint64. -/
def be64 (n : Nat) : List Nat :=
  [n % 2 ^ 64 / 2 ^ 56 % 256, n % 2 ^ 64 / 2 ^ 48 % 256,
   n % 2 ^ 64 / 2 ^ 40 % 256, n % 2 ^ 64 / 2 ^ 32 % 256,
   n % 2 ^ 64 / 2 ^ 24 % 256, n % 2 ^ 64 / 2 ^ 16 % 256,
   n % 2 ^ 64 / 2 ^ 8 % 256, n % 2 ^ 64 % 256]

/-- ntohll: read 8 big-endian bytes back into a value. -/
def deBe64 (bs : List Nat) : Nat :=
  bs.foldl (fun acc b => acc * 256 + b) 0

theorem deBe64_be64 (n : Nat) : deBe64 (be64 n) = n % 2 ^ 64 := by
  simp only [deBe64, be64, List.foldl]
  omega

inductive PARSE_ERROR where
  | PARTIAL_MESSAGE
  | ILLEGAL_MESSAGE
deriving DecidableEq

instance {ε α : Type} [DecidableEq ε] [DecidableEq α] : DecidableEq (Except ε α)
  | Except.ok a, Except.ok b =>
    match decEq a b with
    | isTrue h => isTrue (h ▸ rfl)
    | isFalse h => isFalse (fun hh => h (Except.ok.inj hh))
  | Except.ok _, Except.error _ => isFalse (fun hh => Except.noConfusion hh)
  | Except.error _, Except.ok _ => isFalse (fun hh => Except.noConfusion hh)
  | Except.error e, Except.error f =>
    match decEq e f with
    | isTrue h => isTrue (h ▸ rfl)
    | isFalse h => isFalse (fun hh => h (Except.error.inj hh))

/-- MessageHelper::genMessage: a MessageHeader with the magic and the
body length, followed by the serialized body. -/
def genMessage (m : Message) : List Nat :=
  MAGICB ++ be64 (serializeBody m).length ++ serializeBody m

/-- header.size(): the length field of the frame at the head of the
buffer. -/
def frameLen (buff : List Nat) : Nat :=
  deBe64 ((buff.drop 8).take 8)

/-- MessageHelper::parseMessage.  Returns the parse outcome together
with the state of the buffer after the call: only a successful parse
consumes (retrieves) bytes.

The first branch is modelled from the spec: uvxx::Buffer (its peak and
retrieve operations) is not among the verified sources, and peeking a
MessageHeader out of a buffer shorter than the header is not defined
there; the spec's decode returns PARTIAL when fewer than header-size
bytes are held, and the only caller (Machine::dispatcher) calls
parseMessage only when size ≥ header_size.  The remaining branches
follow the source: the magic check, then the whole-frame length check
and the retrieve amount.  In the source both compute
header_size + header.size() as ssize_t + uint64_t, that is modulo 2^64:
a length field of at least 2^64 - header_size wraps the sum to a value
below header_size, so the size check passes although the frame body is
not fully present (the spec-modelled body parser is total with defaulted
fields and reads only the bytes actually there) and fewer than
header_size bytes are retrieved. -/
def parseMessage (buff : List Nat) : Except PARSE_ERROR Message × List Nat :=
  if buff.length < header_size then (.error .PARTIAL_MESSAGE, buff)
  else if buff.take 8 ≠ MAGICB then (.error .ILLEGAL_MESSAGE, buff)
  else if buff.length < (header_size + frameLen buff) % 2 ^ 64 then
    (.error .PARTIAL_MESSAGE, buff)
  else (.ok (parseBody ((buff.drop header_size).take (frameLen buff))),
        buff.drop ((header_size + frameLen buff) % 2 ^ 64))

theorem genMessage_length (m : Message) :
    (genMessage m).length = header_size + (serializeBody m).length := by
  simp [genMessage, MAGICB, be64, header_size]
  omega

/-- Decoding a frame built by genMessage, with arbitrary trailing bytes,
returns the original message and leaves exactly the trailing bytes.  The
side condition keeps the header_size + length sum inside uint64, which
every frame the program can build satisfies. -/
theorem parseMessage_genMessage_append (m : Message) (r : List Nat)
    (h : header_size + (serializeBody m).length < 2 ^ 64) :
    parseMessage (genMessage m ++ r) = (Except.ok m, r) := by
  have h16 : header_size = 16 := rfl
  have hbl : (serializeBody m).length < 2 ^ 64 := by omega
  have hassoc : genMessage m ++ r
      = MAGICB ++ (be64 (serializeBody m).length ++ (serializeBody m ++ r)) := by
    simp [genMessage]
  rw [hassoc]
  have htake8 : (MAGICB ++ (be64 (serializeBody m).length ++ (serializeBody m ++ r))).take 8
      = MAGICB := rfl
  have hdrop8 : (MAGICB ++ (be64 (serializeBody m).length ++ (serializeBody m ++ r))).drop 8
      = be64 (serializeBody m).length ++ (serializeBody m ++ r) := rfl
  have hfl : frameLen (MAGICB ++ (be64 (serializeBody m).length ++ (serializeBody m ++ r)))
      = (serializeBody m).length := by
    unfold frameLen
    rw [hdrop8]
    have ht : (be64 (serializeBody m).length ++ (serializeBody m ++ r)).take 8
        = be64 (serializeBody m).length := rfl
    rw [ht, deBe64_be64, Nat.mod_eq_of_lt hbl]
  have hmod : (header_size + (serializeBody m).length) % 2 ^ 64
      = header_size + (serializeBody m).length := Nat.mod_eq_of_lt h
  have hlen : (MAGICB ++ (be64 (serializeBody m).length ++ (serializeBody m ++ r))).length
      = header_size + ((serializeBody m).length + r.length) := by
    simp [MAGICB, be64, header_size]
    omega
  have hdrop16 : (MAGICB ++ (be64 (serializeBody m).length ++ (serializeBody m ++ r))).drop
      header_size = serializeBody m ++ r := rfl
  unfold parseMessage
  rw [if_neg (by rw [hlen]; omega), if_neg (by rw [htake8]; simp), hfl, hmod,
    if_neg (by rw [hlen]; omega), hdrop16]
  rw [List.take_left, parseBody_serializeBody]
  congr 1
  rw [← List.drop_drop, hdrop16]
  exact List.drop_left _ _

/-- C1: decode after encode is the identity, for every message whose
header_size + body length fits the uint64 length arithmetic — a bound no
program-built frame can miss. -/
theorem decode_encode_id (m : Message)
    (h : header_size + (serializeBody m).length < 2 ^ 64) :
    parseMessage (genMessage m) = (Except.ok m, []) := by
  simpa using parseMessage_genMessage_append m [] h

/-- C2 counterexample: a 16-byte buffer with a legal magic and length
field 2^64 - 1 holds fewer than header + length bytes, yet the code does
not return PARTIAL: the ssize_t + uint64_t sum wraps to 15, the size
check passes, the body parser sees no bytes and yields a defaulted
message, and 15 bytes are consumed. -/
theorem parseMessage_wrap_counterexample :
    header_size ≤ (MAGICB ++ [255, 255, 255, 255, 255, 255, 255, 255]).length
    ∧ (MAGICB ++ [255, 255, 255, 255, 255, 255, 255, 255]).length
        < header_size + frameLen (MAGICB ++ [255, 255, 255, 255, 255, 255, 255, 255])
    ∧ parseMessage (MAGICB ++ [255, 255, 255, 255, 255, 255, 255, 255])
        = (Except.ok Message.unset, [255]) := by
  refine ⟨by decide, by decide, by decide⟩

/-- C2 amended: decode's branch behavior.  PARTIAL on fewer than
header-size bytes; ILLEGAL when the first 8 bytes differ from the magic;
then the whole-frame check and the retrieve amount use the uint64 sum
(header_size + length) mod 2^64: below it, PARTIAL; otherwise the parsed
body and consumption of exactly that wrapped sum of bytes.  Every error
leaves the buffer unconsumed, and whenever header_size + length does not
wrap — true of every frame the program can produce — the wrapped sum is
header + length itself, i.e. the originally claimed behavior. -/
theorem parseMessage_cases (buff : List Nat) :
    (buff.length < header_size → parseMessage buff = (.error .PARTIAL_MESSAGE, buff))
    ∧ (header_size ≤ buff.length → buff.take 8 ≠ MAGICB →
        parseMessage buff = (.error .ILLEGAL_MESSAGE, buff))
    ∧ (header_size ≤ buff.length → buff.take 8 = MAGICB →
        buff.length < (header_size + frameLen buff) % 2 ^ 64 →
        parseMessage buff = (.error .PARTIAL_MESSAGE, buff))
    ∧ (header_size ≤ buff.length → buff.take 8 = MAGICB →
        (header_size + frameLen buff) % 2 ^ 64 ≤ buff.length →
        parseMessage buff
          = (.ok (parseBody ((buff.drop header_size).take (frameLen buff))),
             buff.drop ((header_size + frameLen buff) % 2 ^ 64)))
    ∧ (∀ e, (parseMessage buff).1 = .error e → (parseMessage buff).2 = buff)
    ∧ (header_size + frameLen buff < 2 ^ 64 →
        (header_size + frameLen buff) % 2 ^ 64 = header_size + frameLen buff) := by
  refine ⟨?_, ?_, ?_, ?_, ?_, ?_⟩
  · intro h
    simp [parseMessage, h]
  · intro h1 h2
    simp [parseMessage, Nat.not_lt.mpr h1, h2]
  · intro h1 h2 h3
    unfold parseMessage
    rw [if_neg (Nat.not_lt.mpr h1), if_neg (fun hne => hne h2), if_pos h3]
  · intro h1 h2 h3
    unfold parseMessage
    rw [if_neg (Nat.not_lt.mpr h1), if_neg (fun hne => hne h2), if_neg (Nat.not_lt.mpr h3)]
  · intro e
    unfold parseMessage
    split_ifs <;> simp
  · exact Nat.mod_eq_of_lt

theorem parseMessage_cases_witness :
    parseMessage [0] = (.error .PARTIAL_MESSAGE, [0])
    ∧ parseMessage [1, 2, 3, 4, 5, 6, 7, 8, 9, 10, 11, 12, 13, 14, 15, 16]
        = (.error .ILLEGAL_MESSAGE, [1, 2, 3, 4, 5, 6, 7, 8, 9, 10, 11, 12, 13, 14, 15, 16])
    ∧ parseMessage [68, 68, 69, 67, 80, 82, 84, 0, 0, 0, 0, 0, 0, 0, 0, 5, 9]
        = (.error .PARTIAL_MESSAGE, [68, 68, 69, 67, 80, 82, 84, 0, 0, 0, 0, 0, 0, 0, 0, 5, 9])
    ∧ parseMessage [68, 68, 69, 67, 80, 82, 84, 0, 0, 0, 0, 0, 0, 0, 0, 1, 4, 7]
        = (.ok Message.deviceSharingStartRequest, [7]) := by
  refine ⟨(parseMessage_cases [0]).1 (by decide),
    (parseMessage_cases _).2.1 (by decide) (by decide),
    (parseMessage_cases _).2.2.1 (by decide) (by decide) (by decide),
    ((parseMessage_cases _).2.2.2.1 (by decide) (by decide) (by decide)).trans (by decide)⟩

/-! ### The dispatcher drain loop, from Machine::dispatcher

The loop runs while the buffer holds at least header_size bytes; each
iteration decodes one frame.  ILLEGAL closes the connection and stops;
PARTIAL stops without closing; a decoded message is dispatched to the
handler for its payload variant, except that the switch's default arm —
reached when payload_case is none of the known variants, in particular
when no payload is set — closes the connection and stops.

The model returns the messages dispatched to handlers in order, the
buffer contents after the loop, and whether the loop itself closed the
connection.  Recursion is by fuel; the initial buffer length is always
enough fuel because every decoded frame consumes at least header_size
bytes.
-/

/-- Whether payload_case is one of the cases the dispatcher's switch
names (all variants except an unset payload). -/
def knownPayload : Message → Bool
  | .unset => false
  | _ => true

def dispatchGo : Nat → List Nat → List Message × List Nat × Bool
  | 0, buff => ([], buff, false)
  | fuel + 1, buff =>
    if buff.length < header_size then ([], buff, false)
    else
      match parseMessage buff with
      | (Except.error .ILLEGAL_MESSAGE, b) => ([], b, true)
      | (Except.error .PARTIAL_MESSAGE, b) => ([], b, false)
      | (Except.ok msg, rest) =>
        if knownPayload msg then
          let t := dispatchGo fuel rest
          (msg :: t.1, t.2.1, t.2.2)
        else ([], rest, true)

def dispatcher (buff : List Nat) : List Message × List Nat × Bool :=
  dispatchGo buff.length buff

/-- The wire image of a sequence of messages: their frames
concatenated. -/
def frames (ms : List Message) : List Nat :=
  ms.foldr (fun m acc => genMessage m ++ acc) []

/-- A buffer holding at most a proper prefix of one frame, as the code
measures it: fewer bytes than the header, or a legal header with fewer
bytes than the uint64-wrapped header_size + length sum.  The drain loop
leaves such a buffer for the next read.  (A bare header whose length
field wraps the sum is deliberately not partial: the code consumes the
wrapped amount there instead of waiting.) -/
def isPartialFrame (t : List Nat) : Prop :=
  t.length < header_size
    ∨ (t.take 8 = MAGICB ∧ t.length < (header_size + frameLen t) % 2 ^ 64)

instance (t : List Nat) : Decidable (isPartialFrame t) := by
  unfold isPartialFrame
  infer_instance

theorem dispatchGo_concat (ms : List Message) :
    ∀ (fuel : Nat) (t : List Nat),
      (∀ m ∈ ms, knownPayload m = true) →
      (∀ m ∈ ms, header_size + (serializeBody m).length < 2 ^ 64) →
      isPartialFrame t →
      (frames ms ++ t).length ≤ fuel →
      dispatchGo fuel (frames ms ++ t) = (ms, t, false) := by
  induction ms with
  | nil =>
    intro fuel t _ _ hp hf
    simp only [frames, List.foldr_nil, List.nil_append]
    match fuel with
    | 0 => rfl
    | fuel + 1 =>
      by_cases hlen : t.length < header_size
      · simp [dispatchGo, hlen]
      · rcases hp with hp | ⟨hmag, hpart⟩
        · exact absurd hp hlen
        · have hpm : parseMessage t = (.error .PARTIAL_MESSAGE, t) :=
            (parseMessage_cases t).2.2.1 (Nat.le_of_not_lt hlen) hmag hpart
          simp [dispatchGo, hlen, hpm]
  | cons m ms ih =>
    intro fuel t hk hl hp hf
    have hbl : header_size + (serializeBody m).length < 2 ^ 64 :=
      hl m (List.mem_cons_self m ms)
    have hfr : frames (m :: ms) ++ t = genMessage m ++ (frames ms ++ t) := by
      simp [frames]
    rw [hfr] at hf ⊢
    have h16 : header_size = 16 := rfl
    have hglen : (genMessage m).length = header_size + (serializeBody m).length :=
      genMessage_length m
    have hlentot : (genMessage m ++ (frames ms ++ t)).length
        = header_size + (serializeBody m).length + (frames ms ++ t).length := by
      rw [List.length_append, hglen]
    have hlen : ¬ ((genMessage m ++ (frames ms ++ t)).length < header_size) := by
      rw [hlentot]
      omega
    obtain ⟨f, rfl⟩ : ∃ f, fuel = f + 1 := ⟨fuel - 1, by rw [hlentot] at hf; omega⟩
    have hpm : parseMessage (genMessage m ++ (frames ms ++ t))
        = (Except.ok m, frames ms ++ t) :=
      parseMessage_genMessage_append m (frames ms ++ t) hbl
    have hrest : (frames ms ++ t).length ≤ f := by
      rw [hlentot] at hf
      omega
    have hrec := ih f t (fun x hx => hk x (List.mem_cons_of_mem m hx))
      (fun x hx => hl x (List.mem_cons_of_mem m hx)) hp hrest
    have hfin : header_size ≤ (genMessage m).length + ((frames ms).length + t.length) := by
      rw [hglen]
      omega
    simp [dispatchGo, hlen, hpm, hk m (List.mem_cons_self m ms), hrec, hfin]

theorem decode_encode_id_witness :
    parseMessage (genMessage (Message.inputEventRequest 7 1 2 0 5))
      = (Except.ok (Message.inputEventRequest 7 1 2 0 5), []) :=
  decode_encode_id (Message.inputEventRequest 7 1 2 0 5) (by decide)

/-! ### Session sharing state, from Machine.cc and the Manager contract

A transition system over any number of Machines.  Each Machine carries
the fields the sharing invariants speak about: whether m_conn is set
(connPresent), m_connected, m_deviceSharing.  The events are the session
events named by the spec: outbound stream connected, PairResponse
delivery, DeviceSharingStartRequest / DeviceSharingStartResponse
delivery, DeviceSharingStopRequest delivery, and stream close
(handleDisconnectedAux).  Message-delivery events are enabled only when
the connection exists (the dispatcher reads from m_conn).

The Manager's active-sharing slot is modelled from the spec (Manager.cc
is not among the verified sources): onStartDeviceSharing registers the
machine only when no other machine holds the slot, onStopDeviceSharing
clears it.  Faithful to Machine.cc, the handlers set m_deviceSharing
without consulting the Manager's verdict and without checking
m_connected, and handleDisconnectedAux clears m_deviceSharing only when
m_connected was still true.
-/

structure MacSt where
  connPresent : Bool
  connected : Bool
  deviceSharing : Bool
deriving DecidableEq

def MacSt.init : MacSt := ⟨false, false, false⟩

structure Sys where
  machines : Nat → MacSt
  slot : Option Nat

def initSys : Sys := ⟨fun _ => MacSt.init, none⟩

def updM (s : Sys) (i : Nat) (m : MacSt) : Sys :=
  { s with machines := fun j => if j = i then m else s.machines j }

/-- Manager::onStartDeviceSharing, modelled from the spec: the slot is
taken only if free; the machine's own flag is not the Manager's
concern. -/
def slotAcquire (s : Sys) (i : Nat) : Sys :=
  match s.slot with
  | none => { s with slot := some i }
  | some _ => s

inductive Ev where
  | streamConnected (i : Nat)
  | pairResponse (i : Nat) (agree : Bool)
  | sharingStartRequest (i : Nat)
  | sharingStartResponse (i : Nat) (accept : Bool)
  | sharingStopRequest (i : Nat)
  | streamClosed (i : Nat)
deriving DecidableEq

/-- One session event.  Each arm follows the corresponding handler in
Machine.cc; events that would be delivered through a connection are
no-ops when the machine has none.

streamConnected: Machine::connect's onConnected fires (the connection is
set and the dispatcher starts reading; m_connected stays false until a
PairResponse).  pairResponse: handlePairResponseAux sets m_connected to
the agree flag (closing the stream on disagreement).
sharingStartRequest / sharingStartResponse(accept):
handleDeviceSharingStartRequest / handleDeviceSharingStartResponse set
m_deviceSharing = true unconditionally and call
Manager::onStartDeviceSharing, ignoring its verdict.
sharingStopRequest: stopDeviceSharingAux clears the Manager slot and the
flag.  streamClosed: handleDisconnectedAux clears sharing and connected
only if m_connected was still true, and always resets m_conn. -/
def step (s : Sys) (e : Ev) : Sys :=
  match e with
  | .streamConnected i =>
    updM s i ⟨true, (s.machines i).connected, (s.machines i).deviceSharing⟩
  | .pairResponse i agree =>
    if (s.machines i).connPresent then
      if agree then
        updM s i ⟨(s.machines i).connPresent, true, (s.machines i).deviceSharing⟩
      else
        updM s i ⟨(s.machines i).connPresent, false, (s.machines i).deviceSharing⟩
    else s
  | .sharingStartRequest i =>
    if (s.machines i).connPresent then
      slotAcquire (updM s i ⟨(s.machines i).connPresent, (s.machines i).connected, true⟩) i
    else s
  | .sharingStartResponse i accept =>
    if (s.machines i).connPresent then
      if accept then
        slotAcquire (updM s i ⟨(s.machines i).connPresent, (s.machines i).connected, true⟩) i
      else s
    else s
  | .sharingStopRequest i =>
    if (s.machines i).connPresent then
      { updM s i ⟨(s.machines i).connPresent, (s.machines i).connected, false⟩ with
        slot := none }
    else s
  | .streamClosed i =>
    if (s.machines i).connPresent then
      if (s.machines i).connected then
        { updM s i ⟨false, false, false⟩ with slot := none }
      else
        updM s i ⟨false, (s.machines i).connected, (s.machines i).deviceSharing⟩
    else s

def run (s : Sys) (evs : List Ev) : Sys :=
  evs.foldl step s

/-- Protocol-conformant delivery: a sharing start is delivered only to a
connected machine, a pair response only to a machine whose pairing has
not completed. -/
def okEv (s : Sys) (e : Ev) : Bool :=
  match e with
  | .pairResponse i _ => ! (s.machines i).connected
  | .sharingStartRequest i => (s.machines i).connected
  | .sharingStartResponse i accept => !accept || (s.machines i).connected
  | _ => true

def Conformant : Sys → List Ev → Bool
  | _, [] => true
  | s, e :: t => okEv s e && Conformant (step s e) t

def SlotInv (s : Sys) : Prop :=
  ∀ i, s.slot = some i → (s.machines i).deviceSharing = true

def ShareInv (s : Sys) : Prop :=
  ∀ i, (s.machines i).deviceSharing = true → (s.machines i).connected = true

theorem updM_machines (s : Sys) (i : Nat) (m : MacSt) (j : Nat) :
    (updM s i m).machines j = if j = i then m else s.machines j := rfl

theorem slotAcquire_machines (s : Sys) (i : Nat) :
    (slotAcquire s i).machines = s.machines := by
  unfold slotAcquire
  rcases hs : s.slot <;> simp [hs]

theorem slotAcquire_slot_none (s : Sys) (i : Nat) (h : s.slot = none) :
    (slotAcquire s i).slot = some i := by
  simp [slotAcquire, h]

theorem slotAcquire_slot_some (s : Sys) (i k : Nat) (h : s.slot = some k) :
    (slotAcquire s i).slot = some k := by
  simp [slotAcquire, h]

theorem SlotInv_updM (s : Sys) (i : Nat) (m : MacSt) (h : SlotInv s)
    (hm : m.deviceSharing = (s.machines i).deviceSharing) : SlotInv (updM s i m) := by
  intro j hj
  replace hj : s.slot = some j := hj
  have hd := h j hj
  rw [updM_machines]
  by_cases hji : j = i
  · subst hji
    rw [if_pos rfl, hm]
    exact hd
  · rw [if_neg hji]
    exact hd

theorem SlotInv_slotAcquire_share (s : Sys) (i : Nat) (m : MacSt) (h : SlotInv s)
    (hm : m.deviceSharing = true) : SlotInv (slotAcquire (updM s i m) i) := by
  intro j hj
  rw [slotAcquire_machines, updM_machines]
  rcases hs : s.slot with _ | k
  · have hsl : (slotAcquire (updM s i m) i).slot = some i :=
      slotAcquire_slot_none _ _ hs
    rw [hsl] at hj
    have hji : i = j := Option.some.inj hj
    subst hji
    rw [if_pos rfl]
    exact hm
  · have hsl : (slotAcquire (updM s i m) i).slot = some k :=
      slotAcquire_slot_some _ _ _ hs
    rw [hsl] at hj
    have hkj : k = j := Option.some.inj hj
    have hd := h j (hkj ▸ hs)
    by_cases hji : j = i
    · subst hji
      rw [if_pos rfl]
      exact hm
    · rw [if_neg hji]
      exact hd

theorem SlotInv_slotNone (x : Sys) : SlotInv { x with slot := none } :=
  fun _ hj => Option.noConfusion hj

theorem SlotInv_step (s : Sys) (e : Ev) (h : SlotInv s) : SlotInv (step s e) := by
  cases e with
  | streamConnected i => exact SlotInv_updM s i _ h rfl
  | pairResponse i agree =>
    simp only [step]
    split_ifs
    · exact SlotInv_updM s i _ h rfl
    · exact SlotInv_updM s i _ h rfl
    · exact h
  | sharingStartRequest i =>
    simp only [step]
    split_ifs
    · exact SlotInv_slotAcquire_share s i _ h rfl
    · exact h
  | sharingStartResponse i accept =>
    simp only [step]
    split_ifs
    · exact SlotInv_slotAcquire_share s i _ h rfl
    · exact h
    · exact h
  | sharingStopRequest i =>
    simp only [step]
    split_ifs
    · exact SlotInv_slotNone _
    · exact h
  | streamClosed i =>
    simp only [step]
    split_ifs
    · exact SlotInv_slotNone _
    · exact SlotInv_updM s i _ h rfl
    · exact h

theorem ShareInv_updM (s : Sys) (i : Nat) (m : MacSt) (h : ShareInv s)
    (hm : m.deviceSharing = true → m.connected = true) : ShareInv (updM s i m) := by
  intro j
  rw [updM_machines]
  by_cases hji : j = i
  · subst hji
    rw [if_pos rfl]
    exact hm
  · rw [if_neg hji]
    exact h j

theorem ShareInv_slotAcquire (x : Sys) (i : Nat) (h : ShareInv x) :
    ShareInv (slotAcquire x i) := by
  intro j
  rw [slotAcquire_machines]
  exact h j

theorem ShareInv_step (s : Sys) (e : Ev) (h : ShareInv s) (hok : okEv s e = true) :
    ShareInv (step s e) := by
  cases e with
  | streamConnected i => exact ShareInv_updM s i _ h (h i)
  | pairResponse i agree =>
    simp only [okEv, Bool.not_eq_true'] at hok
    simp only [step]
    split_ifs
    · exact ShareInv_updM s i _ h (fun _ => rfl)
    · exact ShareInv_updM s i _ h (fun hds => absurd (h i hds) (by rw [hok]; exact fun x => Bool.noConfusion x))
    · exact h
  | sharingStartRequest i =>
    simp only [okEv] at hok
    simp only [step]
    split_ifs
    · exact ShareInv_slotAcquire _ i (ShareInv_updM s i _ h (fun _ => hok))
    · exact h
  | sharingStartResponse i accept =>
    simp only [step]
    split_ifs with hc hacc
    · have hok2 : (s.machines i).connected = true := by
        rw [hacc] at hok
        simpa [okEv] using hok
      exact ShareInv_slotAcquire _ i (ShareInv_updM s i _ h (fun _ => hok2))
    · exact h
    · exact h
  | sharingStopRequest i =>
    simp only [step]
    split_ifs
    · exact ShareInv_updM s i _ h (fun hds => Bool.noConfusion hds)
    · exact h
  | streamClosed i =>
    simp only [step]
    split_ifs
    · exact ShareInv_updM s i _ h (fun hds => Bool.noConfusion hds)
    · exact ShareInv_updM s i _ h (h i)
    · exact h

theorem run_SlotInv (evs : List Ev) : ∀ s : Sys, SlotInv s → SlotInv (run s evs) := by
  induction evs with
  | nil => intro s h; exact h
  | cons e t ih =>
    intro s h
    exact ih (step s e) (SlotInv_step s e h)

theorem run_ShareInv (evs : List Ev) :
    ∀ s : Sys, ShareInv s → Conformant s evs = true → ShareInv (run s evs) := by
  induction evs with
  | nil => intro s h _; exact h
  | cons e t ih =>
    intro s h hc
    rw [Conformant, Bool.and_eq_true] at hc
    exact ih (step s e) (ShareInv_step s e h hc.1) hc.2

/-- C3 counterexample: under the session events as listed by the claim,
a DeviceSharingStartResponse can arrive on an outbound connection before
pairing completes; the handler sets deviceSharing with connected still
false, so the claimed invariant fails in a reachable state. -/
theorem sharing_without_connected :
    ((run initSys [Ev.streamConnected 0, Ev.sharingStartResponse 0 true]).machines 0).deviceSharing
        = true
    ∧ ((run initSys [Ev.streamConnected 0, Ev.sharingStartResponse 0 true]).machines 0).connected
        = false := by
  constructor <;> rfl

/-- C3 amended: across all interleavings the Manager's active-sharing
slot names at most one Machine and that Machine's deviceSharing flag is
set; and when sharing-start messages are delivered only to connected
machines and pair responses only before pairing completes,
deviceSharing implies connected in every reachable state. -/
theorem machine_sharing_invariants (evs : List Ev) :
    (∀ i j, (run initSys evs).slot = some i → (run initSys evs).slot = some j → i = j)
    ∧ SlotInv (run initSys evs)
    ∧ (Conformant initSys evs = true → ShareInv (run initSys evs)) := by
  refine ⟨?_, ?_, ?_⟩
  · intro i j hi hj
    rw [hi] at hj
    exact Option.some.inj hj
  · exact run_SlotInv evs initSys (fun i h => by cases h)
  · intro hc
    exact run_ShareInv evs initSys (fun i h => by cases h) hc

theorem machine_sharing_invariants_witness :
    Conformant initSys [Ev.streamConnected 0, Ev.pairResponse 0 true, Ev.sharingStartRequest 0]
        = true
    ∧ ((run initSys
        [Ev.streamConnected 0, Ev.pairResponse 0 true, Ev.sharingStartRequest 0]).machines
          0).connected = true :=
  ⟨by rfl,
   (machine_sharing_invariants
      [Ev.streamConnected 0, Ev.pairResponse 0 true, Ev.sharingStartRequest 0]).2.2
    (by rfl) 0 (by rfl)⟩

/-! ### Pairing paths, from Machine.cc

A single-machine model rich enough for the two pairing flows.  The state
records the connection (present / initialized by initConnection), the
m_connected flag, whether each timer was stopped, whether a close of the
connection was requested, the confirm dialog, whether the virtual
handleConnected hook ran, and the messages handed to the write queue in
order.

SCAN_KEY is the literal "UOS-COOPERATION" from message_helper.h.  The
ACCEPT byte and the DeviceInfo enum codes live in headers that are not
among the verified sources; they are modelled from the spec (ACCEPT = 1,
REJECT = 0; os and compositor are opaque codes).
-/

def SCAN_KEY_BYTES : List Nat :=
  [85, 79, 83, 45, 67, 79, 79, 80, 69, 82, 65, 84, 73, 79, 78]

/-- Modelled from the spec: the confirm dialog writes ACCEPT = 1. -/
def ACCEPT : Nat := 1

/-- Modelled from the spec: opaque enum code for DEVICE_OS_LINUX. -/
def DEVICE_OS_LINUX : Nat := 1

/-- Modelled from the spec: opaque enum code for COMPOSITOR_X11. -/
def COMPOSITOR_X11 : Nat := 1

/-- The Manager-side data the pairing handlers read. -/
structure PairEnv where
  mgrUuid : List Nat
  hostname : List Nat
  sharedClipboard : Bool
  sharedDevices : Bool

structure PairSt where
  connPresent : Bool
  connInited : Bool
  connected : Bool
  pingStopped : Bool
  offlineStopped : Bool
  closeRequested : Bool
  hasDialog : Bool
  handledConnected : Bool
  sent : List Message
deriving DecidableEq

def PairSt.init : PairSt := ⟨false, false, false, false, false, false, false, false, []⟩

/-- Machine::sendMessage: warn and drop when the connection is reset,
else queue the encoded message. -/
def sendMessage (s : PairSt) (m : Message) : PairSt :=
  if s.connPresent then { s with sent := s.sent ++ [m] } else s

/-- The local DeviceInfo every pair message carries (uuid from the
Manager, hostname, DEVICE_OS_LINUX, COMPOSITOR_X11). -/
def mkSelfDeviceInfo (env : PairEnv) : DeviceInfo :=
  ⟨env.mgrUuid, env.hostname, DEVICE_OS_LINUX, COMPOSITOR_X11⟩

/-- Machine::initConnection: wire onClosed/onReceived, tcpNoDelay,
keepalive. -/
def initConnection (s : PairSt) : PairSt :=
  { s with connInited := true }

/-- Machine::sendServiceStatusNotification. -/
def sendServiceStatusNotification (env : PairEnv) (s : PairSt) : PairSt :=
  sendMessage s (.serviceOnOffNotification env.sharedClipboard env.sharedDevices)

/-- Machine::connect: m_conn is created (outbound). -/
def connectStart (s : PairSt) : PairSt :=
  { s with connPresent := true }

/-- The onConnected callback of Machine::connect: initConnection,
startRead, stop both timers, send the PairRequest. -/
def onConnectedStep (env : PairEnv) (s : PairSt) : PairSt :=
  let s1 := initConnection s
  let s2 := { s1 with pingStopped := true, offlineStopped := true }
  sendMessage s2 (.pairRequest SCAN_KEY_BYTES (mkSelfDeviceInfo env))

/-- Machine::handlePairResponseAux. -/
def handlePairResponseAux (env : PairEnv) (s : PairSt) (agree : Bool) : PairSt :=
  if !agree then
    { s with closeRequested := true, connected := false }
  else
    let s1 := { s with connected := true }
    let s2 := sendServiceStatusNotification env s1
    { s2 with handledConnected := true }

/-- Machine::onPair: adopt the inbound socket and spawn the confirm
dialog. -/
def onPairStep (s : PairSt) : PairSt :=
  { s with connPresent := true, hasDialog := true }

/-- Machine::receivedUserConfirm: reset the dialog; ignore a buffer that
is not exactly one byte; otherwise always send a PairResponse whose
agree flag is (byte = ACCEPT), then either finalize the connection or
close it. -/
def receivedUserConfirm (env : PairEnv) (s : PairSt) (buff : List Nat) : PairSt :=
  let s0 := { s with hasDialog := false }
  match buff with
  | [b] =>
    let isAccept : Bool := b == ACCEPT
    let s1 := sendMessage s0 (.pairResponse SCAN_KEY_BYTES (mkSelfDeviceInfo env) isAccept)
    if isAccept then
      let s2 := initConnection s1
      let s3 := { s2 with pingStopped := true, offlineStopped := true, connected := true }
      let s4 := sendServiceStatusNotification env s3
      { s4 with handledConnected := true }
    else
      { s1 with closeRequested := true }
  | _ => s0

/-- Outbound pairing: connect, stream connected, accepted
PairResponse. -/
def outboundPaired (env : PairEnv) : PairSt :=
  handlePairResponseAux env (onConnectedStep env (connectStart PairSt.init)) true

/-- Inbound pairing: adopt socket on PairRequest, user confirms with the
ACCEPT byte. -/
def inboundAccepted (env : PairEnv) : PairSt :=
  receivedUserConfirm env (onPairStep PairSt.init) [ACCEPT]

/-- The connection-and-timers portion of the state, everything except
the send log. -/
def PairSt.core (s : PairSt) : Bool × Bool × Bool × Bool × Bool × Bool × Bool × Bool :=
  (s.connPresent, s.connInited, s.connected, s.pingStopped, s.offlineStopped,
   s.closeRequested, s.hasDialog, s.handledConnected)

def isSvcNtf : Message → Bool
  | .serviceOnOffNotification _ _ => true
  | _ => false

def svcNtfs (l : List Message) : List Message :=
  l.filter isSvcNtf

/-- C8: the outbound path (connect, accepted PairResponse) and the
inbound path (PairRequest, ACCEPT byte) end in the same Paired state —
connected, connection initialized, both timers stopped, nothing closed —
and each sends the identical ServiceOnOffNotification. -/
theorem pair_paths_agree (env : PairEnv) :
    (outboundPaired env).core = (inboundAccepted env).core
    ∧ (outboundPaired env).core = (true, true, true, true, true, false, false, true)
    ∧ svcNtfs (outboundPaired env).sent = svcNtfs (inboundAccepted env).sent
    ∧ svcNtfs (outboundPaired env).sent
        = [.serviceOnOffNotification env.sharedClipboard env.sharedDevices] := by
  refine ⟨rfl, rfl, rfl, rfl⟩

def isPairResp : Message → Bool
  | .pairResponse _ _ _ => true
  | _ => false

def pairResps (l : List Message) : List Message :=
  l.filter isPairResp

/-- C9: a confirm buffer that is not exactly one byte sends nothing and
leaves the connection alone; one byte always produces exactly one
PairResponse whose agree flag is (byte = ACCEPT); any byte other than
ACCEPT closes the connection, ACCEPT connects instead. -/
theorem receivedUserConfirm_spec (env : PairEnv) (s : PairSt)
    (hconn : s.connPresent = true) :
    (∀ buff : List Nat, buff.length ≠ 1 →
        (receivedUserConfirm env s buff).sent = s.sent
        ∧ (receivedUserConfirm env s buff).closeRequested = s.closeRequested
        ∧ (receivedUserConfirm env s buff).connected = s.connected)
    ∧ (∀ b : Nat,
        pairResps (receivedUserConfirm env s [b]).sent
            = pairResps s.sent
              ++ [.pairResponse SCAN_KEY_BYTES (mkSelfDeviceInfo env) (b == ACCEPT)]
        ∧ (b = ACCEPT →
            (receivedUserConfirm env s [b]).closeRequested = s.closeRequested
            ∧ (receivedUserConfirm env s [b]).connected = true)
        ∧ (b ≠ ACCEPT → (receivedUserConfirm env s [b]).closeRequested = true)) := by
  constructor
  · intro buff hlen
    match buff with
    | [] => exact ⟨rfl, rfl, rfl⟩
    | [b] => exact absurd rfl hlen
    | _ :: _ :: _ => exact ⟨rfl, rfl, rfl⟩
  · intro b
    by_cases hb : b = ACCEPT
    · subst hb
      refine ⟨?_, fun _ => ⟨?_, ?_⟩, fun hne => absurd rfl hne⟩ <;>
        simp [receivedUserConfirm, sendMessage, sendServiceStatusNotification,
          initConnection, hconn, pairResps, isPairResp, List.filter_append]
    · have hbeq : (b == ACCEPT) = false := beq_eq_false_iff_ne.mpr hb
      refine ⟨?_, fun heq => absurd heq hb, fun _ => ?_⟩ <;>
        simp [receivedUserConfirm, sendMessage, sendServiceStatusNotification,
          initConnection, hconn, hbeq, pairResps, isPairResp, List.filter_append]

theorem receivedUserConfirm_spec_witness :
    (receivedUserConfirm ⟨[], [], false, false⟩ (onPairStep PairSt.init) [0]).closeRequested
        = true
    ∧ (receivedUserConfirm ⟨[], [], false, false⟩ (onPairStep PairSt.init) []).sent
        = (onPairStep PairSt.init).sent
    ∧ (receivedUserConfirm ⟨[], [], false, false⟩ (onPairStep PairSt.init) [1]).connected
        = true :=
  ⟨((receivedUserConfirm_spec ⟨[], [], false, false⟩ (onPairStep PairSt.init) rfl).2 0).2.2
      (by decide),
   ((receivedUserConfirm_spec ⟨[], [], false, false⟩ (onPairStep PairSt.init) rfl).1 []
      (by decide)).1,
   (((receivedUserConfirm_spec ⟨[], [], false, false⟩ (onPairStep PairSt.init) rfl).2 1).2.1
      rfl).2⟩

/-! ### Input event handling, from Machine::handleInputEventRequest

The constructor of Machine populates m_inputEmittors with exactly
KEYBOARD, MOUSE and TOUCHPAD.  InputDeviceType itself lives in common.h,
which is not among the verified sources; it is modelled from the spec
(InputDeviceType ∈ \x7bKEYBOARD, MOUSE, TOUCHPAD\x7d, numbered 0, 1, 2),
so the map lookup succeeds exactly when the wire devicetype casts to one
of the three.  The emittor's emitEvent outcome depends on an external
pipe and is passed in as an oracle. -/

inductive InputDeviceType where
  | KEYBOARD
  | MOUSE
  | TOUCHPAD
deriving DecidableEq

def decodeDeviceType : Nat → Option InputDeviceType
  | 0 => some .KEYBOARD
  | 1 => some .MOUSE
  | 2 => some .TOUCHPAD
  | _ => none

/-- Machine::handleInputEventRequest: look up the emittor by devicetype;
if missing, success = false; else inject (type, code, value) and use the
emit outcome; always build an InputEventResponse carrying the request's
serial and the success flag.  Returns (the injection performed, if any;
the reply written to the connection). -/
def handleInputEventRequest (emit : InputDeviceType → Nat → Nat → Nat → Bool)
    (serial devicetype ty co va : Nat) :
    Option (InputDeviceType × Nat × Nat × Nat) × Message :=
  match decodeDeviceType devicetype with
  | none => (none, .inputEventResponse serial false)
  | some d => (some (d, ty, co, va), .inputEventResponse serial (emit d ty co va))

/-- C6: the reply is always an InputEventResponse with the request's
serial; an unknown devicetype injects nothing and reports failure; a
known one injects exactly (type, code, value) and reports the emittor's
outcome. -/
theorem handleInputEventRequest_spec (emit : InputDeviceType → Nat → Nat → Nat → Bool)
    (serial devicetype ty co va : Nat) :
    (∃ ok, (handleInputEventRequest emit serial devicetype ty co va).2
        = .inputEventResponse serial ok)
    ∧ (decodeDeviceType devicetype = none →
        handleInputEventRequest emit serial devicetype ty co va
          = (none, .inputEventResponse serial false))
    ∧ (∀ d, decodeDeviceType devicetype = some d →
        handleInputEventRequest emit serial devicetype ty co va
          = (some (d, ty, co, va), .inputEventResponse serial (emit d ty co va))) := by
  rcases hd : decodeDeviceType devicetype with _ | d <;>
    simp [handleInputEventRequest, hd]

theorem handleInputEventRequest_spec_witness :
    handleInputEventRequest (fun _ _ _ _ => true) 7 9 2 0 5
        = (none, .inputEventResponse 7 false)
    ∧ handleInputEventRequest (fun _ _ _ _ => true) 7 1 2 0 5
        = (some (.MOUSE, 2, 0, 5), .inputEventResponse 7 true) :=
  ⟨(handleInputEventRequest_spec (fun _ _ _ _ => true) 7 9 2 0 5).2.1 (by decide),
   (handleInputEventRequest_spec (fun _ _ _ _ => true) 7 1 2 0 5).2.2 .MOUSE (by decide)⟩

/-! ### File send handling, from Machine::handleFsSendFileRequest

The handler always sends an FsSendFileResponse with the request's
serial.  Without a FuseClient it is a rejection and nothing else ever
happens for that request.  With one, it accepts, computes the copy
source path mountpoint + ('/' prepended to a relative request path), and
spawns a /bin/cp child; its argument wiring lives in the uvxx Process
wrapper, not among the verified sources, so the spawned job is modelled
from the spec: copy mountpoint+path into the user's configured receive
directory.  The onExit continuation sends FsSendFileResult with the
request's serial and path and result = (exit status 0), and emits a
desktop notification about storagePath/filename. -/

def SLASH : Nat := 47

/-- The request-path normalization at the top of the copy branch: a
nonempty path not starting with '/' gets '/' prepended. -/
def normReqPath (p : List Nat) : List Nat :=
  match p with
  | [] => p
  | c :: _ => if c ≠ SLASH then SLASH :: p else p

/-- filePath = m_mountpoint.string() + reqPath. -/
def computeFilePath (mountpoint p : List Nat) : List Nat :=
  mountpoint ++ normReqPath p

structure CopyJob where
  src : List Nat
  dst : List Nat
  serial : Nat
  path : List Nat
deriving DecidableEq

def handleFsSendFileRequest (hasFuseClient : Bool) (mountpoint storagePath : List Nat)
    (serial : Nat) (path : List Nat) : Message × Option CopyJob :=
  if !hasFuseClient then (.fsSendFileResponse serial false, none)
  else (.fsSendFileResponse serial true,
        some ⟨computeFilePath mountpoint path, storagePath, serial, path⟩)

/-- fileName: the request path after its last '/', the whole path if it
has none (find_last_of returning npos makes iPos wrap to 0). -/
def fileNameOf (path : List Nat) : List Nat :=
  (path.reverse.takeWhile (fun c => c != SLASH)).reverse

structure Ntf where
  text : List Nat
  success : Bool
deriving DecidableEq

/-- The onExit continuation of the copy process. -/
def fsSendFileOnExit (storagePath : List Nat) (serial : Nat) (path : List Nat)
    (exit_status : Int) : Message × Ntf :=
  (.fsSendFileResult serial path (exit_status == 0),
   ⟨storagePath ++ SLASH :: fileNameOf path, exit_status == 0⟩)

/-- C7: without a FuseClient the reply is a rejection carrying the
request serial and no copy job exists, so no FsSendFileResult ever
follows; with one, the reply accepts, the job copies mountpoint+path
toward the storage path, and its exit continuation sends
FsSendFileResult with the request's serial, path and result =
(exit = 0) together with a desktop notification with the same success
flag. -/
theorem handleFsSendFileRequest_spec (mountpoint storagePath : List Nat)
    (serial : Nat) (path : List Nat) :
    handleFsSendFileRequest false mountpoint storagePath serial path
        = (.fsSendFileResponse serial false, none)
    ∧ handleFsSendFileRequest true mountpoint storagePath serial path
        = (.fsSendFileResponse serial true,
           some ⟨computeFilePath mountpoint path, storagePath, serial, path⟩)
    ∧ (∀ e : Int,
        (fsSendFileOnExit storagePath serial path e).1
            = .fsSendFileResult serial path (e == 0)
        ∧ (fsSendFileOnExit storagePath serial path e).2.success = (e == 0)) :=
  ⟨rfl, rfl, fun _ => ⟨rfl, rfl⟩⟩

/-- C10: the copy source path is the mountpoint itself for an empty
request path, mountpoint + '/' + path for a relative one, and
mountpoint + path for an absolute one. -/
theorem copy_source_path_spec (mountpoint storagePath : List Nat)
    (serial : Nat) (p : List Nat) :
    (p = [] → (handleFsSendFileRequest true mountpoint storagePath serial p).2
        = some ⟨mountpoint, storagePath, serial, p⟩)
    ∧ (∀ c cs, p = c :: cs → c ≠ SLASH →
        (handleFsSendFileRequest true mountpoint storagePath serial p).2
          = some ⟨mountpoint ++ SLASH :: p, storagePath, serial, p⟩)
    ∧ (∀ cs, p = SLASH :: cs →
        (handleFsSendFileRequest true mountpoint storagePath serial p).2
          = some ⟨mountpoint ++ p, storagePath, serial, p⟩) := by
  refine ⟨?_, ?_, ?_⟩
  · intro hp
    subst hp
    simp [handleFsSendFileRequest, computeFilePath, normReqPath]
  · intro c cs hp hc
    subst hp
    simp [handleFsSendFileRequest, computeFilePath, normReqPath, hc]
  · intro cs hp
    subst hp
    simp [handleFsSendFileRequest, computeFilePath, normReqPath]

theorem copy_source_path_spec_witness :
    (handleFsSendFileRequest true [47, 109, 112] [] 3 [120]).2
        = some ⟨[47, 109, 112, 47, 120], [], 3, [120]⟩
    ∧ (handleFsSendFileRequest true [47, 109, 112] [] 3 [47, 120]).2
        = some ⟨[47, 109, 112, 47, 120], [], 3, [47, 120]⟩
    ∧ (handleFsSendFileRequest true [47, 109, 112] [] 3 []).2
        = some ⟨[47, 109, 112], [], 3, []⟩ :=
  ⟨(copy_source_path_spec [47, 109, 112] [] 3 [120]).2.1 120 [] rfl (by decide),
   (copy_source_path_spec [47, 109, 112] [] 3 [47, 120]).2.2 [120] rfl,
   (copy_source_path_spec [47, 109, 112] [] 3 []).1 rfl⟩

end DdeCoop
